import Mathlib

/-!
# TCP Connector / Listener (NetworkProject)

A shallow embedding of `src/NetworkProject/clientTCP.cpp` (the Connector) and
`src/NetworkProject/serverTCP.cpp` (the Listener), and the statements C1 - C10
about them.

Both programs are straight-line sequences of system calls around one loop.
Everything a system call returns comes from the environment, so each `main` is
embedded as a function of an environment record (`ClientEnv`, `ServerEnv`:
the values the calls return, the bytes on standard input, the results of the
reads on the accepted connection) that yields the list of events the program
performs, in order, and the way the run ends (`Outcome`).

* Each loop is `while (1)` and is left only on an event of the environment,
  so its embedding carries a bound on the number of iterations observed.  A
  run is the pair of the events performed within the bound and, when the
  program ended within it, the way it ended (`none` otherwise).  Statements
  that a run ends give a bound that suffices and hold for every larger one.
* An access through a null pointer or outside `buffer` has no defined result
  in C++; such a run ends with `Outcome.undefined` / `HandlerEnd.outOfBounds`.
* A `write` of the Connector either returns a value or, on a connection the
  peer has closed, is answered with the signal `SIGPIPE`.  The Connector
  installs no handler and uses plain `write`, so the signal ends the process
  at that call (`Outcome.killed`).
* The Listener runs `handleclient` on one thread and joins it before going on,
  so the handler's events are placed where `main` waits for them.
* Library and platform routines (`std::getline`, `strlen`, `inet_pton`,
  `read`) are not in the repository; `getline`, `strlen` and the effect of
  `read` on the buffer follow their standard behaviour, and the result of
  `inet_pton` is a parameter of the environment.

Bytes are natural numbers; descriptors and system-call results are integers.
-/

namespace NetworkProject

/-- One `char`. -/
abbrev Byte := Nat

/-- The bytes of an ASCII string literal, without any terminator. -/
def asciiBytes (s : String) : List Byte := s.data.map Char.toNat

/-- `constexpr unsigned int MAX_BUFFER = 128;` (both files). -/
def MAX_BUFFER : Nat := 128

/-- `constexpr unsigned int MSG_REPLY_LENGTH = 18;` (serverTCP.cpp, never used). -/
def MSG_REPLY_LENGTH : Nat := 18

/-- Observable actions of the two programs, in the order the source performs them. -/
inductive Event where
  /-- `socket(AF_INET, SOCK_STREAM, 0)` returned `ret`. -/
  | socket (ret : Int)
  /-- `setsockopt(fd, SOL_SOCKET, SO_REUSEADDR, ...)`. -/
  | setsockopt (fd : Int)
  /-- `gethostbyname(argv[1])`. -/
  | gethostbyname
  /-- `inet_pton(AF_INET, SERVER_IP, ...)`. -/
  | inet_pton
  /-- `connect(fd, ...)`. -/
  | connect (fd : Int)
  /-- `bind(fd, ...)`. -/
  | bind (fd : Int)
  /-- `listen(fd, 5)`. -/
  | listen (fd : Int)
  /-- `accept(fd, ...)` returned `ret`. -/
  | accept (fd : Int) (ret : Int)
  /-- `getline(std::cin, writeBuffer)`. -/
  | getline
  /-- `write(fd, p, n)` where `bytes` are the `n` bytes at `p`. -/
  | write (fd : Int) (bytes : List Byte)
  /-- `read(fd, buffer, count)`. -/
  | read (fd : Int) (count : Nat)
  /-- `close(fd)`. -/
  | close (fd : Int)
  /-- One diagnostic line on `std::cerr`; values streamed into the line
  (`argv[0]`, the address text) are left out of `msg`. -/
  | cerr (msg : String)
  /-- One line on `std::cout`. -/
  | cout (msg : String)
  /-- The line `Got the message: <payload>` on `std::cout`. -/
  | gotMessage (payload : List Byte)
  deriving DecidableEq, Repr

/-- How a run of `main` ends. -/
inductive Outcome where
  /-- `main` returned `code`. -/
  | exit (code : Int)
  /-- The run reached an access through a null or out-of-range pointer. -/
  | undefined
  /-- The process was ended by the signal `signal`, whose default action the
  program leaves in place. -/
  | killed (signal : Nat)
  deriving DecidableEq, Repr

/-- The number of the signal `SIGPIPE`. -/
def SIGPIPE : Nat := 13

/-! ## C strings -/

/-- The bytes of the C string that starts at the beginning of `s`: everything
before the first zero byte (`strlen` counts them, `operator<<(char*)` prints them). -/
def cString : List Byte → List Byte
  | [] => []
  | b :: bs => if b = 0 then [] else b :: cString bs

/-- `strlen(p)`: the number of bytes before the first zero byte at `p`. -/
def strlen (p : List Byte) : Nat := (cString p).length

/-- `s.c_str()` of a `std::string`: its bytes followed by a zero byte. -/
def c_str (s : List Byte) : List Byte := s ++ [0]

/-! ## Standard input and `std::getline` -/

/-- `std::cin`: the bytes not yet extracted and the two state bits `getline` touches. -/
structure IStream where
  pending : List Byte
  eofbit : Bool
  failbit : Bool
  deriving DecidableEq, Repr

/-- Extract bytes up to the first newline (byte 10).  The second component is
the input after the newline, or `none` when the input ended first. -/
def splitLine : List Byte → List Byte × Option (List Byte)
  | [] => ([], none)
  | c :: cs =>
    if c = 10 then ([], some cs)
    else ((c :: (splitLine cs).1), (splitLine cs).2)

/-- `std::getline(is, str)`: when the stream is not good the string is left as
it was and `failbit` is set; otherwise the string is replaced by the next line
(delimiter extracted and dropped); reaching the end of input sets `eofbit`,
and `failbit` too when nothing at all was extracted. -/
def getline (is : IStream) (str : List Byte) : IStream × List Byte :=
  if is.eofbit || is.failbit then (⟨is.pending, is.eofbit, true⟩, str)
  else
    match splitLine is.pending with
    | (l, some rest) => (⟨rest, false, false⟩, l)
    | (l, none) => (⟨[], true, l.isEmpty⟩, l)

/-! ## The Connector (`clientTCP.cpp`) -/

/-- The literal the input loop compares against: `"exit"`. -/
def exitToken : List Byte := asciiBytes "exit"

/-- How the system answers one `write(sockfd, ...)` of the Connector. -/
inductive WriteResult where
  /-- The call returned `n`: a byte count, or a negative value on an error it reports. -/
  | returned (n : Int)
  /-- The connection is closed for writing (broken pipe): the call raises
  `SIGPIPE`, which is not handled, and does not return. -/
  | sigpipe
  deriving DecidableEq, Repr

/-- What the environment supplies to one run of the Connector. -/
structure ClientEnv where
  /-- `argc`. -/
  argc : Nat
  /-- Result of `socket`. -/
  socketRet : Int
  /-- Whether `gethostbyname(argv[1])` returned a non-null pointer. -/
  hostFound : Bool
  /-- Result of `connect`. -/
  connectRet : Int
  /-- Answer to the `k`-th call of `write` (counted from 0). -/
  writeRet : Nat → WriteResult
  /-- The bytes on standard input. -/
  stdin : List Byte

/-- The `while (1)` loop of the Connector, lines 107-129, followed by lines
131-135, observed for at most the given number of iterations.  `k` counts the
writes done so far. -/
def sendLoop (fd : Int) (writeRet : Nat → WriteResult) :
    Nat → IStream → List Byte → Nat → List Event × Option Outcome
  | 0, _, _, _ => ([], none)
  | fuel + 1, is, writeBuffer, k =>
    let r := getline is writeBuffer
    if r.2 = exitToken then
      ([Event.getline, Event.close fd], some (Outcome.exit 0))
    else
      match writeRet k with
      | WriteResult.sigpipe =>
        ([Event.getline, Event.write fd ((c_str r.2).take (strlen (c_str r.2)))],
         some (Outcome.killed SIGPIPE))
      | WriteResult.returned n =>
        if n < 0 then
          ([Event.getline, Event.write fd ((c_str r.2).take (strlen (c_str r.2))),
            Event.cerr "write to socket"], some (Outcome.exit 4))
        else
          (Event.getline :: Event.write fd ((c_str r.2).take (strlen (c_str r.2))) ::
            (sendLoop fd writeRet fuel r.1 r.2 (k + 1)).1,
           (sendLoop fd writeRet fuel r.1 r.2 (k + 1)).2)

/-- Events of the Connector before its loop, when every step succeeded. -/
def clientPrologue (env : ClientEnv) : List Event :=
  [Event.socket env.socketRet, Event.gethostbyname, Event.connect env.socketRet,
   Event.cout "Enter messages to send to the server. Type 'exit' to quit."]

/-- `main` of clientTCP.cpp. -/
def clientMain (env : ClientEnv) (fuel : Nat) : List Event × Option Outcome :=
  -- line 21: `atoi(argv[2])`; with fewer than three entries `argv[2]` is null or past the end
  if env.argc < 3 then ([], some Outcome.undefined)
  else if env.socketRet < 0 then
    ([Event.socket env.socketRet, Event.cerr "socket error"], some (Outcome.exit 1))
  else if !env.hostFound then
    -- lines 43-46 print and fall through; line 72 reads `server->h_addr` with `server == nullptr`
    ([Event.socket env.socketRet, Event.gethostbyname,
      Event.cerr "gethostbyname, no such host"], some Outcome.undefined)
  else if env.connectRet < 0 then
    ([Event.socket env.socketRet, Event.gethostbyname, Event.connect env.socketRet,
      Event.cerr "connection error"], some (Outcome.exit 3))
  else
    (clientPrologue env ++
      (sendLoop env.socketRet env.writeRet fuel ⟨env.stdin, false, false⟩
        (List.replicate MAX_BUFFER 0) 0).1,
     (sendLoop env.socketRet env.writeRet fuel ⟨env.stdin, false, false⟩
        (List.replicate MAX_BUFFER 0) 0).2)

/-! ## The Listener (`serverTCP.cpp`) -/

/-- Result of one `read` on the accepted connection. -/
inductive ReadResult where
  /-- The call failed (returned -1). -/
  | error
  /-- The call stored `bytes` at the start of the buffer and returned their number. -/
  | data (bytes : List Byte)
  deriving DecidableEq, Repr

/-- The value `read` returns, stored in `int bytesRead`. -/
def bytesRead : ReadResult → Int
  | ReadResult.error => -1
  | ReadResult.data bs => (bs.length : Int)

/-- `std::string reply = "You are connected!";` -/
def reply : List Byte := asciiBytes "You are connected!"

/-- The count passed to `read`: `sizeof(buffer) - 1`. -/
def READ_COUNT : Nat := MAX_BUFFER - 1

/-- The kernel stores the bytes it read at `buffer[0 ..]`; `none` when they do
not fit the array. -/
def storeBytes (buffer : List Byte) (bs : List Byte) : Option (List Byte) :=
  if bs.length ≤ buffer.length then some (bs ++ buffer.drop bs.length) else none

/-- `buffer[i] = v`; `none` when `i` is outside the array. -/
def storeAt (buffer : List Byte) (i : Nat) (v : Byte) : Option (List Byte) :=
  if i < buffer.length then some (buffer.set i v) else none

/-- `std::cout << buffer` for a `char` array: the bytes before the first zero
byte; `none` when the array holds no zero byte (the scan leaves the array). -/
def printed (buffer : List Byte) : Option (List Byte) :=
  if 0 ∈ buffer then some (cString buffer) else none

/-- How `handleclient` ends. -/
inductive HandlerEnd where
  /-- The function returned. -/
  | returned
  /-- The function accessed `buffer` outside its bounds. -/
  | outOfBounds
  deriving DecidableEq, Repr

/-- The buffer after `read` returned: unchanged on failure, otherwise holding
the bytes read at its start. -/
def afterRead (buffer : List Byte) : ReadResult → Option (List Byte)
  | ReadResult.error => some buffer
  | ReadResult.data bs => storeBytes buffer bs

/-- The `while (1)` loop of `handleclient`, lines 29-48, observed for at most
the given number of iterations.  `i` is the number of reads done so far,
`buffer` the current content of `char buffer[MAX_BUFFER]`. -/
def readLoop (fd : Int) (reads : Nat → ReadResult) :
    Nat → Nat → List Byte → List Event × Option HandlerEnd
  | 0, _, _ => ([], none)
  | fuel + 1, i, buffer =>
    match afterRead buffer (reads i) with
    | none => ([Event.read fd READ_COUNT], some HandlerEnd.outOfBounds)
    | some filled =>
      if bytesRead (reads i) < 0 then
        ([Event.read fd READ_COUNT, Event.cerr "read from socket error"],
         some HandlerEnd.returned)
      else
        match storeAt filled (bytesRead (reads i)).toNat 0 with
        | none => ([Event.read fd READ_COUNT], some HandlerEnd.outOfBounds)
        | some terminated =>
          match printed terminated with
          | none => ([Event.read fd READ_COUNT], some HandlerEnd.outOfBounds)
          | some payload =>
            (Event.read fd READ_COUNT :: Event.gotMessage payload ::
              (readLoop fd reads fuel (i + 1) terminated).1,
             (readLoop fd reads fuel (i + 1) terminated).2)

/-- `handleclient(clientsockfd)`: greeting, read loop, and `close` once the
loop is left by `break`.  `buffer0` is the initial (indeterminate) content of
the local array. -/
def handleclient (clientsockfd : Int) (reads : Nat → ReadResult) (buffer0 : List Byte)
    (fuel : Nat) : List Event × Option HandlerEnd :=
  match (readLoop clientsockfd reads fuel 0 buffer0).2 with
  | some HandlerEnd.returned =>
    (Event.write clientsockfd (reply.take reply.length) ::
      ((readLoop clientsockfd reads fuel 0 buffer0).1 ++ [Event.close clientsockfd]),
     some HandlerEnd.returned)
  | other =>
    (Event.write clientsockfd (reply.take reply.length) ::
      (readLoop clientsockfd reads fuel 0 buffer0).1, other)

/-- What the environment supplies to one run of the Listener. -/
structure ServerEnv where
  /-- `argc`. -/
  argc : Nat
  /-- `argv[1]`, the bind address as text. -/
  serverIp : List Byte
  /-- Result of `socket`. -/
  socketRet : Int
  /-- The platform routine behind `inet_pton(AF_INET, text, ...)`: its return value. -/
  ptonRet : List Byte → Int
  /-- Result of `bind`. -/
  bindRet : Int
  /-- Result of `accept`. -/
  acceptRet : Int
  /-- Result of the `i`-th `read` on the accepted connection (counted from 0). -/
  reads : Nat → ReadResult
  /-- Initial content of `buffer` in `handleclient`. -/
  buffer0 : List Byte

/-- Events of the Listener up to and including the connection log line. -/
def serverPrologue (env : ServerEnv) : List Event :=
  [Event.socket env.socketRet, Event.setsockopt env.socketRet, Event.inet_pton,
   Event.bind env.socketRet, Event.listen env.socketRet,
   Event.accept env.socketRet env.acceptRet, Event.cout "server: got connection from"]

/-- `main` of serverTCP.cpp.  The single handler thread is joined before
`main` goes on, so its events are placed where the join waits for them. -/
def serverMain (env : ServerEnv) (fuel : Nat) : List Event × Option Outcome :=
  if env.argc < 3 then
    ([Event.cerr "Usage: <argv0> <IP_ADDRESS> <PORT>"], some (Outcome.exit 1))
  else if env.socketRet < 0 then
    ([Event.socket env.socketRet, Event.cerr "open socket error"], some (Outcome.exit 1))
  else if env.ptonRet env.serverIp ≤ 0 then
    ([Event.socket env.socketRet, Event.setsockopt env.socketRet, Event.inet_pton,
      Event.cerr "Invalid address/Address not supported"], some (Outcome.exit 2))
  else if env.bindRet < 0 then
    ([Event.socket env.socketRet, Event.setsockopt env.socketRet, Event.inet_pton,
      Event.bind env.socketRet, Event.cerr "bind error"], some (Outcome.exit 3))
  else if env.acceptRet < 0 then
    ([Event.socket env.socketRet, Event.setsockopt env.socketRet, Event.inet_pton,
      Event.bind env.socketRet, Event.listen env.socketRet,
      Event.accept env.socketRet env.acceptRet, Event.cerr "accept error"],
     some (Outcome.exit 4))
  else
    match (handleclient env.acceptRet env.reads env.buffer0 fuel).2 with
    | some HandlerEnd.returned =>
      (serverPrologue env ++ (handleclient env.acceptRet env.reads env.buffer0 fuel).1
        ++ [Event.close env.socketRet], some (Outcome.exit 0))
    | some HandlerEnd.outOfBounds =>
      (serverPrologue env ++ (handleclient env.acceptRet env.reads env.buffer0 fuel).1,
       some Outcome.undefined)
    | none =>
      (serverPrologue env ++ (handleclient env.acceptRet env.reads env.buffer0 fuel).1, none)

/-- The descriptors closed in a trace, in order. -/
def closes : List Event → List Int
  | [] => []
  | Event.close fd :: es => fd :: closes es
  | _ :: es => closes es

/-- The descriptors a trace obtained from a successful `socket` or `accept`. -/
def opened : List Event → List Int
  | [] => []
  | Event.socket ret :: es => if ret < 0 then opened es else ret :: opened es
  | Event.accept _ ret :: es => if ret < 0 then opened es else ret :: opened es
  | _ :: es => opened es

/-- The byte lists handed to `write` in a trace, in order. -/
def writes : List Event → List (List Byte)
  | [] => []
  | Event.write _ bs :: es => bs :: writes es
  | _ :: es => writes es

/-- Number of `read` calls in a trace. -/
def readCalls : List Event → Nat
  | [] => 0
  | Event.read _ _ :: es => readCalls es + 1
  | _ :: es => readCalls es

/-- Standard input holding the given lines, each ended by a newline. -/
def feed : List (List Byte) → List Byte
  | [] => []
  | l :: ls => l ++ 10 :: feed ls

/-- The payloads of the `Got the message:` lines of a trace, in order. -/
def logged : List Event → List (List Byte)
  | [] => []
  | Event.gotMessage payload :: es => payload :: logged es
  | _ :: es => logged es

/-- The `bind`, `listen` and `accept` calls of a trace. -/
def bindListenAccept : List Event → List Event
  | [] => []
  | Event.bind fd :: es => Event.bind fd :: bindListenAccept es
  | Event.listen fd :: es => Event.listen fd :: bindListenAccept es
  | Event.accept fd ret :: es => Event.accept fd ret :: bindListenAccept es
  | _ :: es => bindListenAccept es

/-- Events of the Connector's loop for lines that are each read and written
whole: one `getline` and one `write` of the line's C string per line. -/
def sentLines (fd : Int) : List (List Byte) → List Event
  | [] => []
  | l :: ls => Event.getline :: Event.write fd (cString l) :: sentLines fd ls

/-- Events of the Listener's loop for the `k` successful reads numbered
`i, i+1, ...`: one `read` and one log line per read. -/
def received (fd : Int) (reads : Nat → ReadResult) : Nat → Nat → List Event
  | _, 0 => []
  | i, k + 1 =>
    Event.read fd READ_COUNT ::
      Event.gotMessage (match reads i with
        | ReadResult.error => []
        | ReadResult.data bs => cString bs) :: received fd reads (i + 1) k

/-- The platform routine `inet_pton(AF_INET, text, ...)` as its manual page
describes it, scanning `text` byte by byte: four decimal fields of one to three
digits without a leading zero, each at most 255, separated by single dots.
Returns 1 when the text has that shape and 0 otherwise.  `sawDigit` tells
whether the current field has a digit, `octets` counts the fields begun and
`cur` is the value of the current field.  The routine is not part of the
repository: `serverMain` takes it as a parameter. -/
def inet_pton4 : List Byte → Bool → Nat → Nat → Int
  | [], _, octets, _ => if octets < 4 then 0 else 1
  | ch :: rest, sawDigit, octets, cur =>
    if 48 ≤ ch ∧ ch ≤ 57 then
      if sawDigit ∧ cur = 0 then 0
      else if cur * 10 + (ch - 48) > 255 then 0
      else if sawDigit then inet_pton4 rest true octets (cur * 10 + (ch - 48))
      else if octets + 1 > 4 then 0
      else inet_pton4 rest true (octets + 1) (cur * 10 + (ch - 48))
    else if ch = 46 ∧ sawDigit then
      if octets = 4 then 0 else inet_pton4 rest false octets 0
    else 0

/-- The line the `k`-th call of `getline` (counted from 0) leaves in the
string, starting from stream `is` and string `buf`. -/
def lineRead (is : IStream) (buf : List Byte) : Nat → List Byte
  | 0 => (getline is buf).2
  | k + 1 => lineRead (getline is buf).1 (getline is buf).2 k

/-- The lines the first `k` calls of `getline` leave in the string. -/
def linesRead (is : IStream) (buf : List Byte) : Nat → List (List Byte)
  | 0 => []
  | k + 1 => (getline is buf).2 :: linesRead (getline is buf).1 (getline is buf).2 k

/-- The stream and the string after `k` calls of `getline`. -/
def streamAfter (is : IStream) (buf : List Byte) : Nat → IStream × List Byte
  | 0 => (is, buf)
  | k + 1 => streamAfter (getline is buf).1 (getline is buf).2 k

/-! ## Concrete runs used to exercise the statements below -/

/-- Three lines that resemble the exit token or are ordinary text. -/
def demoLines : List (List Byte) := [asciiBytes "hi", asciiBytes "Exit", asciiBytes "exit "]

/-- A Connector run with two arguments, descriptor 3, a resolved host and a
successful connect; `w` answers the writes and `input` is standard input. -/
def demoClient (w : Nat → WriteResult) (input : List Byte) : ClientEnv :=
  ⟨3, 3, true, 0, w, input⟩

/-- Every write returns 2. -/
def allWritten : Nat → WriteResult := fun _ => WriteResult.returned 2

/-- Reads on the accepted connection: `"hi"`, a zero-byte read, the three
bytes `a`, zero, `b`, and then a failure. -/
def demoReads : Nat → ReadResult
  | 0 => ReadResult.data [104, 105]
  | 1 => ReadResult.data []
  | 2 => ReadResult.data [97, 0, 98]
  | _ => ReadResult.error

/-- A Listener run with two arguments, listening descriptor 3 and the given
remaining environment. -/
def demoServer (ip : List Byte) (bindRet acceptRet : Int) : ServerEnv :=
  ⟨3, ip, 3, fun text => inet_pton4 text false 0 0, bindRet, acceptRet, demoReads,
    List.replicate MAX_BUFFER 7⟩

/-! ## Facts about C strings and `getline` -/

theorem cString_append_zero (s t : List Byte) : cString (s ++ 0 :: t) = cString s := by
  induction s with
  | nil => simp [cString]
  | cons a s ih => by_cases h : a = 0 <;> simp [cString, h, ih]

theorem take_length_cString (s t : List Byte) : (s ++ t).take (cString s).length = cString s := by
  induction s with
  | nil => simp [cString]
  | cons a s ih => by_cases h : a = 0 <;> simp [cString, h, ih]

/-- The bytes the Connector hands to `write` for a line are the line's C string. -/
theorem take_strlen_c_str (s : List Byte) :
    (c_str s).take (strlen (c_str s)) = cString s := by
  unfold c_str strlen
  rw [cString_append_zero, take_length_cString]

theorem cString_of_no_zero (s : List Byte) (h : 0 ∉ s) : cString s = s := by
  induction s with
  | nil => rfl
  | cons a s ih =>
    have ha : a ≠ 0 := fun e => h (by simp [e])
    have hs : 0 ∉ s := fun e => h (by simp [e])
    simp [cString, ha, ih hs]

theorem splitLine_line (l tail : List Byte) (h10 : 10 ∉ l)
    (ht : ∀ b, tail.head? = some b → b = 10) :
    (splitLine (l ++ tail)).1 = l ∧ (splitLine (l ++ tail)).2 = tail.tail? := by
  induction l with
  | nil =>
    cases tail with
    | nil => simp [splitLine]
    | cons b t =>
      have hb : b = 10 := ht b rfl
      simp [splitLine, hb]
  | cons a l ih =>
    have ha : a ≠ 10 := fun e => h10 (by simp [e])
    have hl : 10 ∉ l := fun e => h10 (by simp [e])
    have := ih hl
    simp [splitLine, ha, this.1, this.2]

/-- On a good stream whose next line is `l`, `getline` yields `l`, whatever the
string held before. -/
theorem getline_line (l tail buf : List Byte) (h10 : 10 ∉ l)
    (ht : ∀ b, tail.head? = some b → b = 10) :
    (getline ⟨l ++ tail, false, false⟩ buf).2 = l := by
  have h := splitLine_line l tail h10 ht
  unfold getline
  simp only [Bool.or_self, Bool.false_eq_true, if_false]
  generalize hs : splitLine (l ++ tail) = r at h
  obtain ⟨a, b⟩ := r
  cases b <;> simp_all

theorem getline_newline (l rest buf : List Byte) (h10 : 10 ∉ l) :
    getline ⟨l ++ 10 :: rest, false, false⟩ buf = (⟨rest, false, false⟩, l) := by
  have h := splitLine_line l (10 :: rest) h10 (by simp)
  unfold getline
  simp only [Bool.or_self, Bool.false_eq_true, if_false]
  generalize hs : splitLine (l ++ 10 :: rest) = r at h
  obtain ⟨a, b⟩ := r
  cases b <;> simp_all

/-! ## The Connector's loop -/

theorem exitToken_no_newline : 10 ∉ exitToken := by decide

theorem sendLoop_exit (fd : Int) (w : Nat → WriteResult) (fuel : Nat) (is : IStream)
    (buf : List Byte) (k : Nat) (h : (getline is buf).2 = exitToken) :
    sendLoop fd w (fuel + 1) is buf k
      = ([Event.getline, Event.close fd], some (Outcome.exit 0)) := by
  simp [sendLoop, h]

theorem sendLoop_fail (fd : Int) (w : Nat → WriteResult) (fuel : Nat) (is : IStream)
    (buf : List Byte) (k : Nat) (n : Int) (h : (getline is buf).2 ≠ exitToken)
    (hw : w k = WriteResult.returned n) (hn : n < 0) :
    sendLoop fd w (fuel + 1) is buf k
      = ([Event.getline, Event.write fd (cString (getline is buf).2),
          Event.cerr "write to socket"], some (Outcome.exit 4)) := by
  simp [sendLoop, h, hw, hn, take_strlen_c_str]

theorem sendLoop_sigpipe (fd : Int) (w : Nat → WriteResult) (fuel : Nat) (is : IStream)
    (buf : List Byte) (k : Nat) (h : (getline is buf).2 ≠ exitToken)
    (hw : w k = WriteResult.sigpipe) :
    sendLoop fd w (fuel + 1) is buf k
      = ([Event.getline, Event.write fd (cString (getline is buf).2)],
         some (Outcome.killed SIGPIPE)) := by
  simp [sendLoop, h, hw, take_strlen_c_str]

theorem sendLoop_step (fd : Int) (w : Nat → WriteResult) (fuel : Nat) (is : IStream)
    (buf : List Byte) (k : Nat) (n : Int) (h : (getline is buf).2 ≠ exitToken)
    (hw : w k = WriteResult.returned n) (hn : 0 ≤ n) :
    sendLoop fd w (fuel + 1) is buf k
      = (Event.getline :: Event.write fd (cString (getline is buf).2) ::
          (sendLoop fd w fuel (getline is buf).1 (getline is buf).2 (k + 1)).1,
         (sendLoop fd w fuel (getline is buf).1 (getline is buf).2 (k + 1)).2) := by
  have hn2 : ¬ n < 0 := not_lt.mpr hn
  simp [sendLoop, h, hw, hn2, take_strlen_c_str]

/-- As long as the lines read are not the exit token and their writes return
a nonnegative value, each iteration produces one `getline` and one `write`. -/
theorem sendLoop_lines (fd : Int) (w : Nat → WriteResult) (k : Nat) :
    ∀ (fuel : Nat) (is : IStream) (buf : List Byte) (j0 : Nat),
      (∀ j, j < k → lineRead is buf j ≠ exitToken) →
      (∀ j, j < k → ∃ n, w (j0 + j) = WriteResult.returned n ∧ 0 ≤ n) →
      sendLoop fd w (k + fuel) is buf j0
        = (sentLines fd (linesRead is buf k) ++
            (sendLoop fd w fuel (streamAfter is buf k).1 (streamAfter is buf k).2 (j0 + k)).1,
           (sendLoop fd w fuel (streamAfter is buf k).1 (streamAfter is buf k).2 (j0 + k)).2) := by
  induction k with
  | zero => intro fuel is buf j0 _ _; simp [linesRead, streamAfter, sentLines]
  | succ k ih =>
    intro fuel is buf j0 hne hw
    obtain ⟨n, hn, hn0⟩ := hw 0 (by omega)
    have h0 : (getline is buf).2 ≠ exitToken := hne 0 (by omega)
    have hlen : k + 1 + fuel = (k + fuel) + 1 := by omega
    rw [hlen, sendLoop_step fd w _ is buf j0 n h0 (by simpa using hn) hn0]
    rw [ih fuel (getline is buf).1 (getline is buf).2 (j0 + 1)
      (fun j hj => hne (j + 1) (by omega))
      (fun j hj => by
        have := hw (j + 1) (by omega)
        simpa [Nat.add_assoc, Nat.add_comm 1 j] using this)]
    have hk : j0 + 1 + k = j0 + (k + 1) := by omega
    rw [hk]
    simp [linesRead, streamAfter, sentLines]

theorem linesRead_feed (pre : List (List Byte)) :
    ∀ (more buf : List Byte), (∀ l ∈ pre, 10 ∉ l) →
      linesRead ⟨feed pre ++ more, false, false⟩ buf pre.length = pre ∧
      (streamAfter ⟨feed pre ++ more, false, false⟩ buf pre.length).1
        = ⟨more, false, false⟩ := by
  induction pre with
  | nil => intro more buf _; simp [linesRead, streamAfter, feed]
  | cons l ls ih =>
    intro more buf hpre
    have hg : getline ⟨feed (l :: ls) ++ more, false, false⟩ buf
        = (⟨feed ls ++ more, false, false⟩, l) := by
      have := getline_newline l (feed ls ++ more) buf (hpre l (by simp))
      simpa [feed] using this
    obtain ⟨h1, h2⟩ := ih more l (fun x hx => hpre x (by simp [hx]))
    simp only [List.length_cons, linesRead, streamAfter, hg]
    exact ⟨by rw [h1], h2⟩

theorem lineRead_of_mem_linesRead (k : Nat) :
    ∀ (is : IStream) (buf : List Byte) (j : Nat), j < k →
      lineRead is buf j ∈ linesRead is buf k := by
  induction k with
  | zero => intro is buf j hj; omega
  | succ k ih =>
    intro is buf j hj
    cases j with
    | zero => simp [lineRead, linesRead]
    | succ j =>
      simp only [lineRead, linesRead, List.mem_cons]
      exact Or.inr (ih _ _ j (by omega))

/-- The run of the Connector whose input holds the lines `pre`, none of them
the exit token, followed by the exit token: every line before is written and
the loop is left at the exit token. -/
theorem clientMain_exit_path (env : ClientEnv) (pre : List (List Byte)) (tail : List Byte)
    (fuel : Nat) (hargc : 3 ≤ env.argc) (hsock : 0 ≤ env.socketRet)
    (hhost : env.hostFound = true) (hconn : 0 ≤ env.connectRet)
    (hin : env.stdin = feed pre ++ (exitToken ++ tail))
    (htail : ∀ b, tail.head? = some b → b = 10)
    (hpre : ∀ l ∈ pre, 10 ∉ l ∧ l ≠ exitToken)
    (hw : ∀ j, j < pre.length → ∃ n, env.writeRet j = WriteResult.returned n ∧ 0 ≤ n)
    (hfuel : pre.length < fuel) :
    clientMain env fuel
      = (clientPrologue env ++ (sentLines env.socketRet pre
          ++ [Event.getline, Event.close env.socketRet]), some (Outcome.exit 0)) := by
  obtain ⟨m, rfl⟩ : ∃ m, fuel = pre.length + (m + 1) := ⟨fuel - pre.length - 1, by omega⟩
  have h1 : ¬ env.argc < 3 := by omega
  have h2 : ¬ env.socketRet < 0 := not_lt.mpr hsock
  have h3 : ¬ env.connectRet < 0 := not_lt.mpr hconn
  obtain ⟨hl, hs⟩ := linesRead_feed pre (exitToken ++ tail) (List.replicate MAX_BUFFER 0)
    (fun l hl => (hpre l hl).1)
  have hne : ∀ j, j < pre.length →
      lineRead ⟨feed pre ++ (exitToken ++ tail), false, false⟩ (List.replicate MAX_BUFFER 0) j
        ≠ exitToken := by
    intro j hj
    have := lineRead_of_mem_linesRead pre.length
      ⟨feed pre ++ (exitToken ++ tail), false, false⟩ (List.replicate MAX_BUFFER 0) j hj
    rw [hl] at this
    exact (hpre _ this).2
  have hrun := sendLoop_lines env.socketRet env.writeRet pre.length (m + 1)
    ⟨feed pre ++ (exitToken ++ tail), false, false⟩ (List.replicate MAX_BUFFER 0) 0 hne
    (by simpa using hw)
  generalize hst : streamAfter ⟨feed pre ++ (exitToken ++ tail), false, false⟩
    (List.replicate MAX_BUFFER 0) pre.length = st at hrun hs
  obtain ⟨st1, st2⟩ := st
  simp only at hs
  subst hs
  rw [hl, sendLoop_exit _ _ _ _ _ _
    (getline_line exitToken tail _ exitToken_no_newline htail)] at hrun
  unfold clientMain
  rw [if_neg h1, if_neg h2, hin]
  simp only [hhost, Bool.not_true, Bool.false_eq_true, if_false, if_neg h3]
  rw [hrun]

theorem bytesRead_data_of_nonneg (r : ReadResult) (h : 0 ≤ bytesRead r) :
    ∃ bs, r = ReadResult.data bs := by
  cases r with
  | error => simp [bytesRead] at h
  | data bs => exact ⟨bs, rfl⟩

theorem bytesRead_error_of_neg (r : ReadResult) (h : bytesRead r < 0) :
    r = ReadResult.error := by
  cases r with
  | error => rfl
  | data bs => simp only [bytesRead] at h; omega

theorem set_append_length (bs d : List Byte) (hd : d ≠ []) :
    (bs ++ d).set bs.length 0 = bs ++ 0 :: d.tail := by
  induction bs with
  | nil =>
    cases d with
    | nil => exact absurd rfl hd
    | cons a t => simp
  | cons a bs ih => simp [ih]

/-- One read of at most `READ_COUNT` bytes into the 128-byte array: the bytes
fit, the terminator index is inside the array, and the array afterwards holds
the bytes, a zero byte, and the old content behind it. -/
theorem terminate_in_bounds (buffer bs : List Byte) (hbuf : buffer.length = MAX_BUFFER)
    (hn : bs.length ≤ READ_COUNT) :
    storeBytes buffer bs = some (bs ++ buffer.drop bs.length) ∧
    storeAt (bs ++ buffer.drop bs.length) bs.length 0
      = some (bs ++ 0 :: (buffer.drop bs.length).tail) ∧
    (bs ++ 0 :: (buffer.drop bs.length).tail).length = MAX_BUFFER := by
  have h127 : bs.length ≤ 127 := hn
  have h128 : buffer.length = 128 := hbuf
  have hd : buffer.drop bs.length ≠ [] := by
    intro e
    have := congrArg List.length e
    simp only [List.length_drop, List.length_nil] at this
    omega
  refine ⟨?_, ?_, ?_⟩
  · unfold storeBytes
    rw [if_pos (by omega)]
  · unfold storeAt
    rw [if_pos (by simp only [List.length_append, List.length_drop]; omega),
      set_append_length _ _ hd]
  · simp only [List.length_append, List.length_cons, List.length_tail, List.length_drop]
    show _ = 128
    omega

theorem printed_terminated (bs t : List Byte) : printed (bs ++ 0 :: t) = some (cString bs) := by
  unfold printed
  rw [if_pos (by simp), cString_append_zero]

/-- One iteration of the Listener's loop on a successful read. -/
theorem readLoop_data (fd : Int) (reads : Nat → ReadResult) (fuel i : Nat)
    (buffer bs : List Byte) (hbuf : buffer.length = MAX_BUFFER)
    (hr : reads i = ReadResult.data bs) (hn : bs.length ≤ READ_COUNT) :
    readLoop fd reads (fuel + 1) i buffer
      = (Event.read fd READ_COUNT :: Event.gotMessage (cString bs) ::
          (readLoop fd reads fuel (i + 1) (bs ++ 0 :: (buffer.drop bs.length).tail)).1,
         (readLoop fd reads fuel (i + 1) (bs ++ 0 :: (buffer.drop bs.length).tail)).2) := by
  obtain ⟨h1, h2, _⟩ := terminate_in_bounds buffer bs hbuf hn
  have hneg : ¬ ((bs.length : Int) < 0) := by omega
  simp [readLoop, hr, afterRead, bytesRead, h1, h2, printed_terminated, hneg]

/-- One iteration of the Listener's loop on a failed read. -/
theorem readLoop_error (fd : Int) (reads : Nat → ReadResult) (fuel i : Nat)
    (buffer : List Byte) (hr : bytesRead (reads i) < 0) :
    readLoop fd reads (fuel + 1) i buffer
      = ([Event.read fd READ_COUNT, Event.cerr "read from socket error"],
         some HandlerEnd.returned) := by
  have he := bytesRead_error_of_neg _ hr
  simp [readLoop, he, afterRead, bytesRead]

/-- The loop runs through `k` successful reads and is left at the failed read
that follows them. -/
theorem readLoop_run (fd : Int) (reads : Nat → ReadResult) (k : Nat) :
    ∀ (i fuel : Nat) (buffer : List Byte), buffer.length = MAX_BUFFER →
      (∀ j, j < k → 0 ≤ bytesRead (reads (i + j)) ∧ bytesRead (reads (i + j)) ≤ READ_COUNT) →
      bytesRead (reads (i + k)) < 0 →
      readLoop fd reads (k + 1 + fuel) i buffer
        = (received fd reads i k
            ++ [Event.read fd READ_COUNT, Event.cerr "read from socket error"],
           some HandlerEnd.returned) := by
  induction k with
  | zero =>
    intro i fuel buffer _ _ herr
    have : 0 + 1 + fuel = fuel + 1 := by omega
    rw [this, readLoop_error fd reads fuel i buffer (by simpa using herr)]
    simp [received]
  | succ k ih =>
    intro i fuel buffer hbuf hok herr
    obtain ⟨h0, h1⟩ := hok 0 (by omega)
    simp only [Nat.add_zero] at h0 h1
    obtain ⟨bs, hbs⟩ := bytesRead_data_of_nonneg _ h0
    have hn : bs.length ≤ READ_COUNT := by
      rw [hbs] at h1
      simp only [bytesRead] at h1
      exact_mod_cast h1
    have hfuel : k + 1 + 1 + fuel = (k + 1 + fuel) + 1 := by omega
    rw [hfuel, readLoop_data fd reads _ i buffer bs hbuf hbs hn]
    rw [ih (i + 1) fuel _ (terminate_in_bounds buffer bs hbuf hn).2.2
      (fun j hj => by
        have := hok (j + 1) (by omega)
        simpa [Nat.add_assoc, Nat.add_comm 1 j] using this)
      (by simpa [Nat.add_assoc, Nat.add_comm 1 k] using herr)]
    simp [received, hbs]

/-- When no read delivers more than was asked for, the loop never leaves the array. -/
theorem readLoop_in_bounds (fd : Int) (reads : Nat → ReadResult)
    (hreads : ∀ j, bytesRead (reads j) ≤ READ_COUNT) (fuel : Nat) :
    ∀ (i : Nat) (buffer : List Byte), buffer.length = MAX_BUFFER →
      (readLoop fd reads fuel i buffer).2 ≠ some HandlerEnd.outOfBounds := by
  induction fuel with
  | zero => intro i buffer _; simp [readLoop]
  | succ fuel ih =>
    intro i buffer hbuf
    by_cases hneg : bytesRead (reads i) < 0
    · rw [readLoop_error fd reads fuel i buffer hneg]
      simp
    · obtain ⟨bs, hbs⟩ := bytesRead_data_of_nonneg _ (not_lt.mp hneg)
      have hn : bs.length ≤ READ_COUNT := by
        have := hreads i
        rw [hbs] at this
        simp only [bytesRead] at this
        exact_mod_cast this
      rw [readLoop_data fd reads fuel i buffer bs hbuf hbs hn]
      exact ih (i + 1) _ (terminate_in_bounds buffer bs hbuf hn).2.2

theorem closes_append (a b : List Event) : closes (a ++ b) = closes a ++ closes b := by
  induction a with
  | nil => rfl
  | cons e a ih => cases e <;> simp [closes, ih]

theorem opened_append (a b : List Event) : opened (a ++ b) = opened a ++ opened b := by
  induction a with
  | nil => rfl
  | cons e a ih =>
    cases e <;> simp [opened, ih]
    all_goals split <;> simp

theorem readCalls_append (a b : List Event) :
    readCalls (a ++ b) = readCalls a + readCalls b := by
  induction a with
  | nil => simp [readCalls]
  | cons e a ih =>
    cases e <;> simp [readCalls, ih]
    omega

theorem closes_received (fd : Int) (reads : Nat → ReadResult) (k : Nat) :
    ∀ i, closes (received fd reads i k) = [] := by
  induction k with
  | zero => intro i; rfl
  | succ k ih => intro i; simp [received, closes, ih]

theorem readCalls_received (fd : Int) (reads : Nat → ReadResult) (k : Nat) :
    ∀ i, readCalls (received fd reads i k) = k := by
  induction k with
  | zero => intro i; rfl
  | succ k ih => intro i; simp [received, readCalls, ih]

theorem writes_append (a b : List Event) : writes (a ++ b) = writes a ++ writes b := by
  induction a with
  | nil => rfl
  | cons e a ih => cases e <;> simp [writes, ih]

theorem writes_sentLines (fd : Int) (ls : List (List Byte)) :
    writes (sentLines fd ls) = ls.map cString := by
  induction ls with
  | nil => rfl
  | cons l ls ih => simp [sentLines, writes, ih]

theorem closes_sentLines (fd : Int) (ls : List (List Byte)) : closes (sentLines fd ls) = [] := by
  induction ls with
  | nil => rfl
  | cons l ls ih => simp [sentLines, closes, ih]

/-- Within any bound the Connector's loop opens nothing; it has closed the
socket, once, exactly when it was left by the exit token. -/
theorem sendLoop_closes (fd : Int) (w : Nat → WriteResult) (fuel : Nat) :
    ∀ (is : IStream) (buf : List Byte) (k : Nat),
      opened (sendLoop fd w fuel is buf k).1 = [] ∧
      (((sendLoop fd w fuel is buf k).2 = some (Outcome.exit 0)
          ∧ closes (sendLoop fd w fuel is buf k).1 = [fd]) ∨
       ((sendLoop fd w fuel is buf k).2 ≠ some (Outcome.exit 0)
          ∧ closes (sendLoop fd w fuel is buf k).1 = [])) := by
  induction fuel with
  | zero => intro is buf k; simp [sendLoop, opened, closes]
  | succ fuel ih =>
    intro is buf k
    by_cases hx : (getline is buf).2 = exitToken
    · rw [sendLoop_exit fd w fuel is buf k hx]
      simp [opened, closes]
    · cases hw : w k with
      | sigpipe =>
        rw [sendLoop_sigpipe fd w fuel is buf k hx hw]
        simp [opened, closes]
      | returned n =>
        by_cases hn : n < 0
        · rw [sendLoop_fail fd w fuel is buf k n hx hw hn]
          simp [opened, closes]
        · rw [sendLoop_step fd w fuel is buf k n hx hw (not_lt.mp hn)]
          have := ih (getline is buf).1 (getline is buf).2 (k + 1)
          simpa [opened, closes] using this

/-- The ways one iteration of the Listener's loop can go. -/
theorem readLoop_cases (fd : Int) (reads : Nat → ReadResult) (fuel i : Nat)
    (buffer : List Byte) :
    readLoop fd reads (fuel + 1) i buffer
        = ([Event.read fd READ_COUNT], some HandlerEnd.outOfBounds) ∨
    readLoop fd reads (fuel + 1) i buffer
        = ([Event.read fd READ_COUNT, Event.cerr "read from socket error"],
           some HandlerEnd.returned) ∨
    (∃ payload buf1, readLoop fd reads (fuel + 1) i buffer
        = (Event.read fd READ_COUNT :: Event.gotMessage payload ::
            (readLoop fd reads fuel (i + 1) buf1).1,
           (readLoop fd reads fuel (i + 1) buf1).2)) := by
  simp only [readLoop]
  split
  · exact Or.inl rfl
  · split
    · exact Or.inr (Or.inl rfl)
    · split
      · exact Or.inl rfl
      · split
        · exact Or.inl rfl
        · exact Or.inr (Or.inr ⟨_, _, rfl⟩)

/-- Within any bound the Listener's loop opens and closes nothing, starts with
a `read`, and asks for `READ_COUNT` bytes in every read. -/
theorem readLoop_trace (fd : Int) (reads : Nat → ReadResult) (fuel : Nat) :
    ∀ (i : Nat) (buffer : List Byte),
      closes (readLoop fd reads fuel i buffer).1 = [] ∧
      opened (readLoop fd reads fuel i buffer).1 = [] ∧
      writes (readLoop fd reads fuel i buffer).1 = [] ∧
      (0 < fuel → (readLoop fd reads fuel i buffer).1.head? = some (Event.read fd READ_COUNT)) ∧
      ∀ fd1 c, Event.read fd1 c ∈ (readLoop fd reads fuel i buffer).1 → c = READ_COUNT := by
  induction fuel with
  | zero => intro i buffer; simp [readLoop, closes, opened, writes]
  | succ fuel ih =>
    intro i buffer
    rcases readLoop_cases fd reads fuel i buffer with h | h | ⟨payload, buf1, h⟩
    · rw [h]; simp [closes, opened, writes]
    · rw [h]; simp [closes, opened, writes]
    · obtain ⟨h1, h2, h3, _, h5⟩ := ih (i + 1) buf1
      rw [h]
      refine ⟨by simpa [closes] using h1, by simpa [opened] using h2,
        by simpa [writes] using h3, fun _ => rfl, ?_⟩
      intro fd1 c hmem
      simp only [List.mem_cons, Event.read.injEq, reduceCtorEq, false_or] at hmem
      rcases hmem with ⟨_, rfl⟩ | hmem
      · rfl
      · exact h5 fd1 c hmem

theorem head_newline (rest : List Byte) : ∀ b, (10 :: rest).head? = some b → b = 10 := by
  intro b h
  simp only [List.head?_cons, Option.some.injEq] at h
  exact h.symm

theorem allWritten_returned (j : Nat) :
    ∃ n, allWritten j = WriteResult.returned n ∧ 0 ≤ n := ⟨2, rfl, by decide⟩

theorem reply_take : reply.take reply.length = reply := List.take_length reply

/-- The handler's run through `k` successful reads followed by a failed one. -/
theorem handleclient_run (fd : Int) (reads : Nat → ReadResult) (buffer0 : List Byte)
    (k fuel : Nat) (hbuf : buffer0.length = MAX_BUFFER)
    (hok : ∀ j, j < k → 0 ≤ bytesRead (reads j) ∧ bytesRead (reads j) ≤ READ_COUNT)
    (herr : bytesRead (reads k) < 0) (hfuel : k < fuel) :
    handleclient fd reads buffer0 fuel
      = (Event.write fd reply :: (received fd reads 0 k
          ++ [Event.read fd READ_COUNT, Event.cerr "read from socket error",
              Event.close fd]), some HandlerEnd.returned) := by
  obtain ⟨m, rfl⟩ : ∃ m, fuel = k + 1 + m := ⟨fuel - k - 1, by omega⟩
  unfold handleclient
  rw [readLoop_run fd reads k 0 m buffer0 hbuf (by simpa using hok) (by simpa using herr)]
  simp [reply_take]

/-- Within any bound the handler's events start with the one write of the
greeting; the handler opens nothing and has closed the connection, once,
exactly when it has returned. -/
theorem handleclient_trace (fd : Int) (reads : Nat → ReadResult) (buffer0 : List Byte)
    (fuel : Nat) :
    (handleclient fd reads buffer0 fuel).1.head? = some (Event.write fd reply) ∧
    writes (handleclient fd reads buffer0 fuel).1 = [reply] ∧
    opened (handleclient fd reads buffer0 fuel).1 = [] ∧
    ((handleclient fd reads buffer0 fuel).2 = some HandlerEnd.returned →
      closes (handleclient fd reads buffer0 fuel).1 = [fd]) ∧
    ((handleclient fd reads buffer0 fuel).2 ≠ some HandlerEnd.returned →
      closes (handleclient fd reads buffer0 fuel).1 = []) := by
  obtain ⟨h1, h2, h3, _, _⟩ := readLoop_trace fd reads fuel 0 buffer0
  unfold handleclient
  split
  · refine ⟨by simp [reply_take], ?_, ?_, ?_, ?_⟩
    · simp [writes, writes_append, h3, reply_take]
    · simp [opened, opened_append, h2]
    · intro _; simp [closes, closes_append, h1]
    · intro hc; exact absurd rfl hc
  · rename_i other hne
    refine ⟨by simp [reply_take], ?_, ?_, ?_, ?_⟩
    · simp [writes, h3, reply_take]
    · simp [opened, h2]
    · intro hc
      exact absurd hc (hne)
    · intro _; simp [closes, h1]

/-- The Listener's run when every setup step succeeds and the handler's loop
ends at the failed read number `k`. -/
theorem serverMain_run (env : ServerEnv) (k fuel : Nat) (hargc : 3 ≤ env.argc)
    (hsock : 0 ≤ env.socketRet) (hpton : 0 < env.ptonRet env.serverIp)
    (hbind : 0 ≤ env.bindRet) (hacc : 0 ≤ env.acceptRet)
    (hbuf : env.buffer0.length = MAX_BUFFER)
    (hok : ∀ j, j < k → 0 ≤ bytesRead (env.reads j) ∧ bytesRead (env.reads j) ≤ READ_COUNT)
    (herr : bytesRead (env.reads k) < 0) (hfuel : k < fuel) :
    serverMain env fuel
      = (serverPrologue env ++ (Event.write env.acceptRet reply ::
          (received env.acceptRet env.reads 0 k
            ++ [Event.read env.acceptRet READ_COUNT, Event.cerr "read from socket error",
                Event.close env.acceptRet])) ++ [Event.close env.socketRet],
          some (Outcome.exit 0)) := by
  have h1 : ¬ env.argc < 3 := by omega
  have h2 : ¬ env.socketRet < 0 := not_lt.mpr hsock
  have h3 : ¬ env.ptonRet env.serverIp ≤ 0 := not_le.mpr hpton
  have h4 : ¬ env.bindRet < 0 := not_lt.mpr hbind
  have h5 : ¬ env.acceptRet < 0 := not_lt.mpr hacc
  unfold serverMain
  rw [if_neg h1, if_neg h2, if_neg h3, if_neg h4, if_neg h5,
    handleclient_run env.acceptRet env.reads env.buffer0 k fuel hbuf hok herr hfuel]

/-- Within any bound: when the Listener's `main` has returned 0 it obtained
the listening socket and the accepted connection and closed each once; in
every other case nothing has been closed. -/
theorem serverMain_closes (env : ServerEnv) (fuel : Nat) :
    ((serverMain env fuel).2 = some (Outcome.exit 0) →
      closes (serverMain env fuel).1 = [env.acceptRet, env.socketRet] ∧
      opened (serverMain env fuel).1 = [env.socketRet, env.acceptRet]) ∧
    ((serverMain env fuel).2 ≠ some (Outcome.exit 0) → closes (serverMain env fuel).1 = []) := by
  obtain ⟨_, _, h3, h4, h5⟩ :=
    handleclient_trace env.acceptRet env.reads env.buffer0 fuel
  unfold serverMain
  split
  · exact ⟨fun hc => by simp at hc, fun _ => rfl⟩
  · split
    · exact ⟨fun hc => by simp at hc, fun _ => rfl⟩
    · split
      · exact ⟨fun hc => by simp at hc, fun _ => rfl⟩
      · split
        · exact ⟨fun hc => by simp at hc, fun _ => rfl⟩
        · split
          · exact ⟨fun hc => by simp at hc, fun _ => rfl⟩
          · rename_i hs _ _ ha
            split
            · rename_i hret
              refine ⟨fun _ => ⟨?_, ?_⟩, fun hc => absurd rfl hc⟩
              · simp [closes_append, closes, serverPrologue, h4 hret]
              · simp [opened_append, opened, serverPrologue, h3, hs, ha]
            · rename_i hoob
              refine ⟨fun hc => by simp at hc, fun _ => ?_⟩
              simp [closes_append, closes, serverPrologue, h5 (by rw [hoob]; simp)]
            · rename_i hnone
              refine ⟨fun hc => by simp at hc, fun _ => ?_⟩
              simp [closes_append, closes, serverPrologue, h5 (by rw [hnone]; simp)]

/-- Within any bound: when the Connector's `main` has returned 0 it obtained
one socket and closed it once; in every other case nothing has been closed. -/
theorem clientMain_closes (env : ClientEnv) (fuel : Nat) :
    ((clientMain env fuel).2 = some (Outcome.exit 0) →
      closes (clientMain env fuel).1 = [env.socketRet] ∧
      opened (clientMain env fuel).1 = [env.socketRet]) ∧
    ((clientMain env fuel).2 ≠ some (Outcome.exit 0) → closes (clientMain env fuel).1 = []) := by
  unfold clientMain
  split
  · exact ⟨fun hc => by simp at hc, fun _ => rfl⟩
  · split
    · exact ⟨fun hc => by simp at hc, fun _ => rfl⟩
    · split
      · exact ⟨fun hc => by simp at hc, fun _ => rfl⟩
      · split
        · exact ⟨fun hc => by simp at hc, fun _ => rfl⟩
        · rename_i hs _ _
          obtain ⟨ho, hc⟩ := sendLoop_closes env.socketRet env.writeRet fuel
            ⟨env.stdin, false, false⟩ (List.replicate MAX_BUFFER 0) 0
          rcases hc with ⟨h0, hcl⟩ | ⟨h4, hcl⟩
          · refine ⟨fun _ => ⟨?_, ?_⟩, fun hne => absurd h0 hne⟩
            · simp [closes_append, clientPrologue, closes, hcl]
            · simp [opened_append, clientPrologue, opened, ho, hs]
          · refine ⟨fun h0 => absurd h0 h4, fun _ => ?_⟩
            simp [closes_append, clientPrologue, closes, hcl]

/-! ## Statements C1 - C10 -/

/-- C1: for input whose lines before the first `exit` line are `pre` (none of
them the exit token, however close: `Exit` and `exit ` with a trailing blank
are not it), the loop, being reached and not cut short by a failed write
(each earlier write returned a nonnegative value), writes each line of `pre`,
stops at the `exit` line without writing it or anything after it, closes the
socket, and `main` returns 0.  The `exit` line may be ended by a newline or by
the end of input. -/
theorem C1_exit_token_ends_send_loop (env : ClientEnv) (pre : List (List Byte))
    (tail : List Byte) (fuel : Nat) (hargc : 3 ≤ env.argc) (hsock : 0 ≤ env.socketRet)
    (hhost : env.hostFound = true) (hconn : 0 ≤ env.connectRet)
    (hin : env.stdin = feed pre ++ (exitToken ++ tail))
    (htail : ∀ b, tail.head? = some b → b = 10)
    (hpre : ∀ l ∈ pre, 10 ∉ l ∧ l ≠ exitToken)
    (hw : ∀ j, j < pre.length → ∃ n, env.writeRet j = WriteResult.returned n ∧ 0 ≤ n)
    (hfuel : pre.length < fuel) :
    exitToken = [101, 120, 105, 116] ∧ asciiBytes "Exit" ≠ exitToken ∧
    asciiBytes "exit " ≠ exitToken ∧
    ∃ tr, clientMain env fuel = (tr, some (Outcome.exit 0)) ∧
      tr = clientPrologue env ++ (sentLines env.socketRet pre
            ++ [Event.getline, Event.close env.socketRet]) ∧
      writes tr = pre.map cString ∧ closes tr = [env.socketRet] := by
  refine ⟨by decide, by decide, by decide, _, clientMain_exit_path env pre tail fuel hargc hsock
    hhost hconn hin htail hpre hw hfuel, rfl, ?_, ?_⟩
  · simp [writes_append, writes_sentLines, clientPrologue, writes]
  · simp [closes_append, closes_sentLines, clientPrologue, closes]

/-- The run on the lines `hi`, `Exit`, `exit ` (trailing blank), `exit`, `more`:
the first three are written, the loop stops at the fourth. -/
theorem C1_exit_token_ends_send_loop_witness :
    ∃ tr, clientMain (demoClient (allWritten)
        (feed demoLines ++ (exitToken ++ 10 :: asciiBytes "more"))) 4
          = (tr, some (Outcome.exit 0)) ∧
      tr = clientPrologue (demoClient (allWritten)
            (feed demoLines ++ (exitToken ++ 10 :: asciiBytes "more")))
          ++ (sentLines 3 demoLines ++ [Event.getline, Event.close 3]) ∧
      writes tr = demoLines.map cString ∧ closes tr = [3] :=
  (C1_exit_token_ends_send_loop
    (demoClient (allWritten) (feed demoLines ++ (exitToken ++ 10 :: asciiBytes "more")))
    demoLines (10 :: asciiBytes "more") 4 (by decide) (by decide) rfl (by decide) rfl
    (head_newline _) (by decide) (fun j _ => allWritten_returned j) (by decide)).2.2.2

/-- C2 (the code at the failing input): for the input line made of the three
bytes `a`, zero, `b`, the Connector hands `write` the single byte `a`: the
count comes from `strlen`, which stops at the zero byte.  The run is otherwise
regular and ends with exit code 0 at the `exit` line that follows. -/
theorem C2_zero_byte_line_is_cut :
    writes (clientMain (demoClient (allWritten) (feed [[97, 0, 98], exitToken])) 2).1
      = [[97]] ∧
    writes (clientMain (demoClient (allWritten) (feed [[97, 0, 98], exitToken])) 2).1
      ≠ [[97, 0, 98]] ∧
    (clientMain (demoClient (allWritten) (feed [[97, 0, 98], exitToken])) 2).2
      = some (Outcome.exit 0) := by
  decide

/-- C3 (counterexample): the third read of the run delivers the three bytes
`a`, zero, `b`, and the log line for it carries the single byte `a`, not the
three bytes read. -/
theorem C3_counterexample :
    logged (handleclient 4 demoReads (List.replicate MAX_BUFFER 7) 4).1
      = [[104, 105], [], [97]] ∧
    logged (handleclient 4 demoReads (List.replicate MAX_BUFFER 7) 4).1
      ≠ [[104, 105], [], [97, 0, 98]] := by
  rw [handleclient_run 4 demoReads _ 3 4 (List.length_replicate _ _) (by decide) (by decide)
    (by decide)]
  decide

/-- C3 (amended): a read that delivers the bytes `bs` (any number from zero up
to the count asked for) makes the handler emit, after the `read`, exactly one
log line whose payload is the C string of `bs`, that is `bs` up to its first
zero byte: all of `bs` when it has no zero byte, nothing when it is empty.
The loop then goes on with the next read: the events that follow are those of
the loop at read `i + 1`, and the first of them is a `read`. -/
theorem C3_one_log_line_per_read (fd : Int) (reads : Nat → ReadResult) (fuel i : Nat)
    (buffer bs : List Byte) (hbuf : buffer.length = MAX_BUFFER)
    (hr : reads i = ReadResult.data bs) (hn : bs.length ≤ READ_COUNT) :
    readLoop fd reads (fuel + 2) i buffer
      = (Event.read fd READ_COUNT :: Event.gotMessage (cString bs) ::
          (readLoop fd reads (fuel + 1) (i + 1) (bs ++ 0 :: (buffer.drop bs.length).tail)).1,
         (readLoop fd reads (fuel + 1) (i + 1) (bs ++ 0 :: (buffer.drop bs.length).tail)).2) ∧
    (readLoop fd reads (fuel + 1) (i + 1) (bs ++ 0 :: (buffer.drop bs.length).tail)).1.head?
      = some (Event.read fd READ_COUNT) ∧
    (0 ∉ bs → cString bs = bs) ∧ cString [] = [] :=
  ⟨readLoop_data fd reads (fuel + 1) i buffer bs hbuf hr hn,
   (readLoop_trace fd reads (fuel + 1) (i + 1) _).2.2.2.1 (Nat.succ_pos fuel),
   cString_of_no_zero bs, rfl⟩

/-- The first read of `demoReads` delivers `hi`, which is logged whole. -/
theorem C3_one_log_line_per_read_witness :
    readLoop 4 demoReads 4 0 (List.replicate MAX_BUFFER 7)
      = (Event.read 4 READ_COUNT :: Event.gotMessage (cString [104, 105]) ::
          (readLoop 4 demoReads 3 1
            ([104, 105] ++ 0 :: ((List.replicate MAX_BUFFER 7).drop 2).tail)).1,
         (readLoop 4 demoReads 3 1
            ([104, 105] ++ 0 :: ((List.replicate MAX_BUFFER 7).drop 2).tail)).2) ∧
    cString [104, 105] = [104, 105] :=
  ⟨(C3_one_log_line_per_read 4 demoReads 2 0 (List.replicate MAX_BUFFER 7) [104, 105]
      (List.length_replicate _ _) rfl (by decide)).1,
   (C3_one_log_line_per_read 4 demoReads 2 0 (List.replicate MAX_BUFFER 7) [104, 105]
      (List.length_replicate _ _) rfl (by decide)).2.2.1 (by decide)⟩

/-- C4: when the reads numbered `0 .. k-1` succeed (zero-byte reads included)
and read number `k` fails, the handler runs through exactly those `k` reads,
logging each, and leaves the loop at read `k`: it reports the error, issues no
further read (`k + 1` reads in all) and closes the connection exactly once. -/
theorem C4_loop_ends_at_first_failed_read (fd : Int) (reads : Nat → ReadResult)
    (buffer0 : List Byte) (k fuel : Nat) (hbuf : buffer0.length = MAX_BUFFER)
    (hok : ∀ j, j < k → 0 ≤ bytesRead (reads j) ∧ bytesRead (reads j) ≤ READ_COUNT)
    (herr : bytesRead (reads k) < 0) (hfuel : k < fuel) :
    ∃ tr, handleclient fd reads buffer0 fuel = (tr, some HandlerEnd.returned) ∧
      tr = Event.write fd reply :: (received fd reads 0 k
          ++ [Event.read fd READ_COUNT, Event.cerr "read from socket error",
              Event.close fd]) ∧
      readCalls tr = k + 1 ∧ closes tr = [fd] := by
  refine ⟨_, handleclient_run fd reads buffer0 k fuel hbuf hok herr hfuel, rfl, ?_, ?_⟩
  · simp [readCalls, readCalls_append, readCalls_received]
  · simp [closes, closes_append, closes_received]

/-- The run on `demoReads`: three reads succeed, the second of them with zero
bytes, and the fourth fails. -/
theorem C4_loop_ends_at_first_failed_read_witness :
    ∃ tr, handleclient 4 demoReads (List.replicate MAX_BUFFER 7) 4
        = (tr, some HandlerEnd.returned) ∧
      tr = Event.write 4 reply :: (received 4 demoReads 0 3
          ++ [Event.read 4 READ_COUNT, Event.cerr "read from socket error", Event.close 4]) ∧
      readCalls tr = 3 + 1 ∧ closes tr = [4] :=
  C4_loop_ends_at_first_failed_read 4 demoReads (List.replicate MAX_BUFFER 7) 3 4
    (List.length_replicate _ _) (by decide) (by decide) (by decide)

/-- C5 (counterexample): a Connector whose `connect` fails returns 3 having
obtained socket 3 and closed nothing; a Listener given an address that does
not parse returns 2 having obtained socket 3 and closed nothing. -/
theorem C5_counterexample :
    (clientMain ⟨3, 3, true, -1, allWritten, []⟩ 1).2 = some (Outcome.exit 3) ∧
    opened (clientMain ⟨3, 3, true, -1, allWritten, []⟩ 1).1 = [3] ∧
    closes (clientMain ⟨3, 3, true, -1, allWritten, []⟩ 1).1 = [] ∧
    (serverMain (demoServer (asciiBytes "999.999.999.999") 0 4) 1).2
      = some (Outcome.exit 2) ∧
    opened (serverMain (demoServer (asciiBytes "999.999.999.999") 0 4) 1).1 = [3] ∧
    closes (serverMain (demoServer (asciiBytes "999.999.999.999") 0 4) 1).1 = [] := by
  decide

/-- C5 (amended): a Connector that has returned 0 obtained one socket and
closed it exactly once, and a Listener that has returned 0 obtained the
listening socket and the accepted connection and closed each exactly once (the
connection first); a run that ended any other way, or has not ended, has
closed nothing. -/
theorem C5_sockets_closed_on_normal_exit_only (c : ClientEnv) (s : ServerEnv) (fuel : Nat) :
    (((clientMain c fuel).2 = some (Outcome.exit 0) →
        closes (clientMain c fuel).1 = [c.socketRet] ∧
        opened (clientMain c fuel).1 = [c.socketRet]) ∧
      ((clientMain c fuel).2 ≠ some (Outcome.exit 0) → closes (clientMain c fuel).1 = [])) ∧
    (((serverMain s fuel).2 = some (Outcome.exit 0) →
        closes (serverMain s fuel).1 = [s.acceptRet, s.socketRet] ∧
        opened (serverMain s fuel).1 = [s.socketRet, s.acceptRet]) ∧
      ((serverMain s fuel).2 ≠ some (Outcome.exit 0) → closes (serverMain s fuel).1 = [])) :=
  ⟨clientMain_closes c fuel, serverMain_closes s fuel⟩

/-- A Connector run ended by the exit token, a Connector run ended by a failed
`connect`, and a Listener run ended by a failed read. -/
theorem C5_sockets_closed_on_normal_exit_only_witness :
    (closes (clientMain (demoClient (allWritten) (feed demoLines ++ (exitToken ++ []))) 4).1
        = [3] ∧
     opened (clientMain (demoClient (allWritten) (feed demoLines ++ (exitToken ++ []))) 4).1
        = [3]) ∧
    closes (clientMain ⟨3, 3, true, -1, allWritten, []⟩ 4).1 = [] ∧
    (closes (serverMain (demoServer (asciiBytes "127.0.0.1") 0 4) 4).1 = [4, 3] ∧
     opened (serverMain (demoServer (asciiBytes "127.0.0.1") 0 4) 4).1 = [3, 4]) :=
  ⟨(C5_sockets_closed_on_normal_exit_only
        (demoClient (allWritten) (feed demoLines ++ (exitToken ++ [])))
        (demoServer (asciiBytes "127.0.0.1") 0 4) 4).1.1 (by decide),
   (C5_sockets_closed_on_normal_exit_only ⟨3, 3, true, -1, allWritten, []⟩
        (demoServer (asciiBytes "127.0.0.1") 0 4) 4).1.2 (by decide),
   (C5_sockets_closed_on_normal_exit_only
        (demoClient (allWritten) (feed demoLines ++ (exitToken ++ [])))
        (demoServer (asciiBytes "127.0.0.1") 0 4) 4).2.1
      (by rw [serverMain_run (demoServer (asciiBytes "127.0.0.1") 0 4) 3 4 (by decide)
        (by decide) (by decide) (by decide) (by decide) (List.length_replicate _ _)
        (by decide) (by decide) (by decide)])⟩

/-- C6 (counterexample): the one write of a handler run asks for 18 bytes, not 19. -/
theorem C6_counterexample :
    (writes (handleclient 4 demoReads (List.replicate MAX_BUFFER 7) 4).1).map List.length
      = [18] ∧
    (writes (handleclient 4 demoReads (List.replicate MAX_BUFFER 7) 4).1).map List.length
      ≠ [19] := by
  rw [handleclient_run 4 demoReads _ 3 4 (List.length_replicate _ _) (by decide) (by decide)
    (by decide)]
  decide

/-- C6 (amended): whatever the connection delivers and however long the
handler is observed, its first event is the write of the greeting to the
accepted connection, and that is its only write; the greeting is the text
`You are connected!`, 18 bytes long (the value of `MSG_REPLY_LENGTH`), ending
in `!` and holding neither a zero byte nor a newline. -/
theorem C6_greeting_is_18_bytes (fd : Int) (reads : Nat → ReadResult) (buffer0 : List Byte)
    (fuel : Nat) :
    (handleclient fd reads buffer0 fuel).1.head? = some (Event.write fd reply) ∧
    writes (handleclient fd reads buffer0 fuel).1 = [reply] ∧
    reply = asciiBytes "You are connected!" ∧ reply.length = 18 ∧
    reply.length = MSG_REPLY_LENGTH ∧ reply.getLast? = some 33 ∧ 0 ∉ reply ∧ 10 ∉ reply :=
  ⟨(handleclient_trace fd reads buffer0 fuel).1, (handleclient_trace fd reads buffer0 fuel).2.1,
    rfl, by decide, by decide, by decide, by decide, by decide⟩

/-- C7 (the code at the failing input): when `gethostbyname` returns a null
pointer the Connector prints its diagnostic and goes on to read through that
pointer; the run does not end with an exit code. -/
theorem C7_unresolved_host_falls_through (fuel : Nat) :
    clientMain ⟨3, 3, false, 0, allWritten, feed [asciiBytes "hello", exitToken]⟩ fuel
      = ([Event.socket 3, Event.gethostbyname,
          Event.cerr "gethostbyname, no such host"], some Outcome.undefined) := by
  simp [clientMain]

/-- C9: the Listener returns 1 when `argc` is below 3 and when `socket`
fails, 2 when `inet_pton` rejects the bind address (result not positive, as
for `999.999.999.999`), with no `bind`, `listen` or `accept` in that run, 3
when `bind` fails and 4 when `accept` fails; each case presupposes that the
steps before it succeeded. -/
theorem C9_listener_exit_codes (env : ServerEnv) (fuel : Nat) :
    (env.argc < 3 →
      serverMain env fuel
        = ([Event.cerr "Usage: <argv0> <IP_ADDRESS> <PORT>"], some (Outcome.exit 1))) ∧
    (3 ≤ env.argc → env.socketRet < 0 →
      serverMain env fuel
        = ([Event.socket env.socketRet, Event.cerr "open socket error"],
           some (Outcome.exit 1))) ∧
    (3 ≤ env.argc → 0 ≤ env.socketRet → env.ptonRet env.serverIp ≤ 0 →
      ∃ tr, serverMain env fuel = (tr, some (Outcome.exit 2)) ∧
        tr = [Event.socket env.socketRet, Event.setsockopt env.socketRet, Event.inet_pton,
              Event.cerr "Invalid address/Address not supported"] ∧
        bindListenAccept tr = []) ∧
    (3 ≤ env.argc → 0 ≤ env.socketRet → 0 < env.ptonRet env.serverIp → env.bindRet < 0 →
      serverMain env fuel
        = ([Event.socket env.socketRet, Event.setsockopt env.socketRet, Event.inet_pton,
            Event.bind env.socketRet, Event.cerr "bind error"], some (Outcome.exit 3))) ∧
    (3 ≤ env.argc → 0 ≤ env.socketRet → 0 < env.ptonRet env.serverIp → 0 ≤ env.bindRet →
      env.acceptRet < 0 →
      serverMain env fuel
        = ([Event.socket env.socketRet, Event.setsockopt env.socketRet, Event.inet_pton,
            Event.bind env.socketRet, Event.listen env.socketRet,
            Event.accept env.socketRet env.acceptRet, Event.cerr "accept error"],
           some (Outcome.exit 4))) := by
  refine ⟨?_, ?_, ?_, ?_, ?_⟩
  · intro h1
    simp [serverMain, h1]
  · intro h1 h2
    have h1 : ¬ env.argc < 3 := by omega
    simp [serverMain, h1, h2]
  · intro h1 h2 h3
    have h1 : ¬ env.argc < 3 := by omega
    have h2 : ¬ env.socketRet < 0 := not_lt.mpr h2
    refine ⟨_, ?_, rfl, rfl⟩
    simp [serverMain, h1, h2, h3]
  · intro h1 h2 h3 h4
    have h1 : ¬ env.argc < 3 := by omega
    have h2 : ¬ env.socketRet < 0 := not_lt.mpr h2
    have h3 : ¬ env.ptonRet env.serverIp ≤ 0 := not_le.mpr h3
    simp [serverMain, h1, h2, h3, h4]
  · intro h1 h2 h3 h4 h5
    have h1 : ¬ env.argc < 3 := by omega
    have h2 : ¬ env.socketRet < 0 := not_lt.mpr h2
    have h3 : ¬ env.ptonRet env.serverIp ≤ 0 := not_le.mpr h3
    have h4 : ¬ env.bindRet < 0 := not_lt.mpr h4
    simp [serverMain, h1, h2, h3, h4, h5]

/-- Five runs, one per case; the address `999.999.999.999` is rejected by
`inet_pton4`. -/
theorem C9_listener_exit_codes_witness :
    serverMain ⟨2, asciiBytes "127.0.0.1", 3, fun _ => 1, 0, 4, demoReads, []⟩ 1
      = ([Event.cerr "Usage: <argv0> <IP_ADDRESS> <PORT>"], some (Outcome.exit 1)) ∧
    serverMain ⟨3, asciiBytes "127.0.0.1", -1, fun _ => 1, 0, 4, demoReads, []⟩ 1
      = ([Event.socket (-1), Event.cerr "open socket error"], some (Outcome.exit 1)) ∧
    (∃ tr, serverMain (demoServer (asciiBytes "999.999.999.999") 0 4) 1
        = (tr, some (Outcome.exit 2)) ∧
      tr = [Event.socket 3, Event.setsockopt 3, Event.inet_pton,
            Event.cerr "Invalid address/Address not supported"] ∧
      bindListenAccept tr = []) ∧
    serverMain (demoServer (asciiBytes "127.0.0.1") (-1) 4) 1
      = ([Event.socket 3, Event.setsockopt 3, Event.inet_pton, Event.bind 3,
          Event.cerr "bind error"], some (Outcome.exit 3)) ∧
    serverMain (demoServer (asciiBytes "127.0.0.1") 0 (-1)) 1
      = ([Event.socket 3, Event.setsockopt 3, Event.inet_pton, Event.bind 3,
          Event.listen 3, Event.accept 3 (-1), Event.cerr "accept error"],
         some (Outcome.exit 4)) :=
  ⟨(C9_listener_exit_codes ⟨2, asciiBytes "127.0.0.1", 3, fun _ => 1, 0, 4, demoReads, []⟩
      1).1 (by decide),
   (C9_listener_exit_codes ⟨3, asciiBytes "127.0.0.1", -1, fun _ => 1, 0, 4, demoReads, []⟩
      1).2.1 (by decide) (by decide),
   (C9_listener_exit_codes (demoServer (asciiBytes "999.999.999.999") 0 4) 1).2.2.1
      (by decide) (by decide) (by decide),
   (C9_listener_exit_codes (demoServer (asciiBytes "127.0.0.1") (-1) 4) 1).2.2.2.1
      (by decide) (by decide) (by decide) (by decide),
   (C9_listener_exit_codes (demoServer (asciiBytes "127.0.0.1") 0 (-1)) 1).2.2.2.2
      (by decide) (by decide) (by decide) (by decide) (by decide)⟩

/-- C10: every `read` of the handler asks for `READ_COUNT = MAX_BUFFER - 1 = 127`
bytes.  For a read that returns a count `n` with `0 ≤ n ≤ READ_COUNT`, the
bytes fit the 128-byte array and the index `n` of the terminator is below 128,
so the store succeeds and the array keeps its size; and a loop all of whose
reads respect the count never takes an out-of-range branch. -/
theorem C10_terminator_index_in_bounds (fd : Int) (reads : Nat → ReadResult) (i : Nat)
    (buffer : List Byte) (hbuf : buffer.length = MAX_BUFFER)
    (h0 : 0 ≤ bytesRead (reads i)) (hn : bytesRead (reads i) ≤ READ_COUNT) :
    READ_COUNT = MAX_BUFFER - 1 ∧ READ_COUNT = 127 ∧ MAX_BUFFER = 128 ∧
    (bytesRead (reads i)).toNat < MAX_BUFFER ∧
    (∃ filled terminated, afterRead buffer (reads i) = some filled ∧
      storeAt filled (bytesRead (reads i)).toNat 0 = some terminated ∧
      terminated.length = MAX_BUFFER) ∧
    (∀ fuel fd1 c, Event.read fd1 c ∈ (readLoop fd reads fuel i buffer).1 → c = 127) ∧
    ((∀ j, bytesRead (reads j) ≤ READ_COUNT) →
      ∀ fuel, (readLoop fd reads fuel i buffer).2 ≠ some HandlerEnd.outOfBounds) := by
  obtain ⟨bs, hbs⟩ := bytesRead_data_of_nonneg _ h0
  have hlen : bs.length ≤ READ_COUNT := by
    rw [hbs] at hn
    simp only [bytesRead] at hn
    exact_mod_cast hn
  obtain ⟨t1, t2, t3⟩ := terminate_in_bounds buffer bs hbuf hlen
  refine ⟨rfl, rfl, rfl, ?_, ⟨bs ++ buffer.drop bs.length,
    bs ++ 0 :: (buffer.drop bs.length).tail, ?_, ?_, t3⟩, ?_, ?_⟩
  · rw [hbs]
    simp only [bytesRead, Int.toNat_ofNat]
    have : bs.length ≤ 127 := hlen
    show bs.length < 128
    omega
  · rw [hbs]; exact t1
  · rw [hbs]; simpa [bytesRead] using t2
  · intro fuel
    exact (readLoop_trace fd reads fuel i buffer).2.2.2.2
  · intro hall fuel
    exact readLoop_in_bounds fd reads hall fuel i buffer hbuf

/-- The three-byte read of `demoReads` into a 128-byte array. -/
theorem C10_terminator_index_in_bounds_witness :
    (bytesRead (demoReads 2)).toNat < MAX_BUFFER ∧
    (∃ filled terminated, afterRead (List.replicate MAX_BUFFER 7) (demoReads 2) = some filled ∧
      storeAt filled (bytesRead (demoReads 2)).toNat 0 = some terminated ∧
      terminated.length = MAX_BUFFER) ∧
    (∀ fuel, (readLoop 4 demoReads fuel 2 (List.replicate MAX_BUFFER 7)).2
      ≠ some HandlerEnd.outOfBounds) :=
  ⟨(C10_terminator_index_in_bounds 4 demoReads 2 (List.replicate MAX_BUFFER 7)
      (List.length_replicate _ _) (by decide) (by decide)).2.2.2.1,
   (C10_terminator_index_in_bounds 4 demoReads 2 (List.replicate MAX_BUFFER 7)
      (List.length_replicate _ _) (by decide) (by decide)).2.2.2.2.1,
   (C10_terminator_index_in_bounds 4 demoReads 2 (List.replicate MAX_BUFFER 7)
      (List.length_replicate _ _) (by decide) (by decide)).2.2.2.2.2.2
      (fun j => by
        match j with
        | 0 => decide
        | 1 => decide
        | 2 => decide
        | _ + 3 =>
          show (-1 : Int) ≤ ((READ_COUNT : Nat) : Int)
          decide)⟩

end NetworkProject
